import Mathlib

/-
Verification of the FluxTag batch-captioning tool's core logic:
the adaptive concurrent job queue in src/App.tsx, the provider adapters
in services/gemini.ts and services/openai.ts, and the export helpers in
utils/fileHelpers.ts.  Every definition is a shallow embedding of the
corresponding TypeScript function, with machine strings modelled as Lean
String and the cooperative-async dispatch loop modelled as a small-step
transition system over an explicit run state.
-/

namespace FluxTag

/-- Model of the JavaScript String.prototype.trim builtin: remove
leading and trailing whitespace characters. -/
def jsTrim (s : String) : String :=
  ⟨((s.data.dropWhile fun c => c.isWhitespace).reverse.dropWhile fun c => c.isWhitespace).reverse⟩

/-- AI provider discriminant, from AiProvider in types.ts. -/
inductive Provider where
  | gemini
  | openai
deriving DecidableEq, Repr

/-- Item status, from TaggedImage.status in types.ts. -/
inductive ItemStatus where
  | idle
  | loading
  | success
  | error
  | translating
deriving DecidableEq, Repr

/-- Baseline concurrency limit chosen at run start in processQueue
(App.tsx line 119): 5 for openai, 3 otherwise. -/
def baseLimit : Provider → Nat
  | .openai => 5
  | .gemini => 3

/-- Baseline dispatch delay chosen at run start in processQueue
(App.tsx line 120): 100 ms for openai, 500 ms otherwise. -/
def baseDelay : Provider → Nat
  | .openai => 100
  | .gemini => 500

/-- Bool test that the pattern list occurs as a contiguous sublist,
modelling the JavaScript String.includes used for error classification. -/
def subOccurs (pat : List Char) : List Char → Bool
  | [] => pat.isEmpty
  | c :: rest => pat.isPrefixOf (c :: rest) || subOccurs pat rest

/-- String.includes of JavaScript: does pat occur inside s? -/
def containsSub (s pat : String) : Bool :=
  subOccurs pat.data s.data

/-- A thrown JavaScript error as seen by the catch block of
processItemWithRetry: its optional numeric status field and the string
produced by JSON.stringify(error, Object.getOwnPropertyNames(error)). -/
structure JsError where
  statusCode : Option Nat
  errString : String
deriving DecidableEq, Repr

/-- Rate-limit classification from App.tsx lines 172-176:
error.status === 429, or the stringified error contains 429,
RESOURCE_EXHAUSTED, or quota. -/
def isRateLimit (e : JsError) : Bool :=
  (e.statusCode == some 429) ||
  containsSub e.errString "429" ||
  containsSub e.errString "RESOURCE_EXHAUSTED" ||
  containsSub e.errString "quota"

/-- Retryable classification from App.tsx line 178: rate-limit, or the
stringified error contains 503, fetch, or network. -/
def isRetryable (e : JsError) : Bool :=
  isRateLimit e ||
  containsSub e.errString "503" ||
  containsSub e.errString "fetch" ||
  containsSub e.errString "network"

/-- Terminal error message selection from App.tsx lines 209-213. -/
def classifyErrorMsg (p : Provider) (openaiApiKey : String) (e : JsError) : String :=
  if isRateLimit e then "配额耗尽"
  else if containsSub e.errString "MIME" then "格式错误"
  else if containsSub e.errString "SAFETY" then "内容拦截"
  else if p == Provider.openai && openaiApiKey == "" then "缺 API Key"
  else "生成失败"

/-- Outcome of one adapter call: a bilingual caption or a thrown error. -/
inductive CallResult where
  | ok (en zh : String)
  | err (e : JsError)

/-- Observable outcome of processItemWithRetry for one item: how many
adapter calls were made, how many backoff waits occurred, the final
status written to the item, the final error message, and the stored
captions (trimmed on success, App.tsx line 164). -/
structure RetryOutcome where
  calls : Nat
  waits : Nat
  finalStatus : ItemStatus
  errMsg : Option String
  resultEn : Option String
  resultZh : Option String
deriving DecidableEq, Repr

/-- Retry cap MAX_RETRIES from App.tsx line 179. -/
def MAX_RETRIES : Nat := 10

/-- Recursion core of processItemWithRetry (App.tsx lines 126-221) for a
run in which cancellation is never requested, with the adapter outcome of
the call made at each attempt given by an oracle.  The source recurses on
attempt with the guard attempt < MAX_RETRIES; here the same recursion is
driven by the remaining budget MAX_RETRIES - attempt, so the branch taken
at remaining = 0 is exactly the source's attempt >= MAX_RETRIES branch. -/
def retryGo (adapter : Nat → CallResult) (p : Provider) (openaiApiKey : String) :
    Nat → Nat → RetryOutcome
  | remaining, attempt =>
    match adapter attempt with
    | .ok en zh => ⟨1, 0, .success, none, some (jsTrim en), some (jsTrim zh)⟩
    | .err e =>
      if isRetryable e then
        match remaining with
        | r + 1 =>
          let o := retryGo adapter p openaiApiKey r (attempt + 1)
          ⟨o.calls + 1, o.waits + 1, o.finalStatus, o.errMsg, o.resultEn, o.resultZh⟩
        | 0 => ⟨1, 0, .error, some (classifyErrorMsg p openaiApiKey e), none, none⟩
      else ⟨1, 0, .error, some (classifyErrorMsg p openaiApiKey e), none, none⟩

/-- processItemWithRetry entered at a given attempt (0 from the dispatch
loop and from regenerate), cancellation never requested. -/
def processItemWithRetry (adapter : Nat → CallResult) (p : Provider)
    (openaiApiKey : String) (attempt : Nat) : RetryOutcome :=
  retryGo adapter p openaiApiKey (MAX_RETRIES - attempt) attempt

/-- getFinalCaption from App.tsx lines 397-400: the three parts
[prefix-setting, raw caption, suffix-setting], kept when truthy and
nonempty after trim, joined with a single space.  The parts themselves
are not trimmed. -/
def getFinalCaption (pre suf rawCaption : String) : String :=
  let parts := [pre, rawCaption, suf]
  String.intercalate " " (parts.filter (fun p => !p.data.isEmpty && !(jsTrim p).data.isEmpty))

/-- cleanBaseUrl from services/openai.ts line 4: url.replace of the
regex matching one or more trailing slashes with the empty string,
i.e. removal of the maximal trailing run of slash characters. -/
def cleanBaseUrl (url : String) : String :=
  ⟨(url.data.reverse.dropWhile (fun c => c == '/')).reverse⟩

/-- Request URL built by generateCaptionOpenAI (services/openai.ts
line 16). -/
def openaiRequestUrl (baseUrl : String) : String :=
  cleanBaseUrl baseUrl ++ "/chat/completions"

/-- Bool test that a string's last character is a slash. -/
def endsWithSlash (s : String) : Bool :=
  match s.data.getLast? with
  | some c => c == '/'
  | none => false

/-- JavaScript filename.substring(0, filename.lastIndexOf(. )) from
downloadAsZip (fileHelpers.ts line 35): everything before the last dot,
empty when there is no dot (lastIndexOf = -1 gives substring(0,-1) = ""). -/
def dropAfterLastDot (f : String) : String :=
  ⟨(((f.data.reverse).dropWhile (fun c => !(c == '.'))).drop 1).reverse⟩

/-- Base name used by downloadAsZip (fileHelpers.ts lines 35-37):
the part before the last dot, falling back to the whole filename when
that part is empty. -/
def zipBaseNameOf (filename : String) : String :=
  let b := dropAfterLastDot filename
  if b == "" then filename else b

/-- Association-list write modelling usedNames[key] = value. -/
def setAssoc (k : String) (v : Nat) : List (String × Nat) → List (String × Nat)
  | [] => [(k, v)]
  | (k2, v2) :: rest => if k2 == k then (k2, v) :: rest else (k2, v2) :: setAssoc k v rest

/-- Entry-name assignment loop of downloadAsZip (fileHelpers.ts lines
32-50).  usedNames is the JS object; the branch condition
if (usedNames[txtName]) is JavaScript truthiness, i.e. the key is present
with a nonzero value.  The first occurrence stores 0. -/
def zipEntryNamesGo : List String → List (String × Nat) → List String
  | [], _ => []
  | f :: rest, used =>
    let base := zipBaseNameOf f
    let txt := base ++ ".txt"
    match used.lookup txt with
    | some n =>
      if n != 0 then
        let n2 := n + 1
        (base ++ "_" ++ toString n2 ++ ".txt") :: zipEntryNamesGo rest (setAssoc txt n2 used)
      else
        txt :: zipEntryNamesGo rest (setAssoc txt 0 used)
    | none => txt :: zipEntryNamesGo rest ((txt, 0) :: used)

/-- Archive entry names produced by downloadAsZip for the given input
filenames, in order. -/
def zipEntryNames (files : List String) : List String :=
  zipEntryNamesGo files []

/-- A work item as seen by the queue entry points: its id and status. -/
structure WorkItem where
  id : Nat
  status : ItemStatus
deriving DecidableEq, Repr

/-- Data fixed at the start of one processQueue run (App.tsx lines
111-123): the filtered queue of item ids, the baseline concurrency limit
and dispatch delay, and the attempt value the dispatch loop passes to
processItemWithRetry (the default 0). -/
structure RunStart where
  queueIds : List Nat
  limit : Nat
  delay : Nat
  firstAttempt : Nat
deriving DecidableEq, Repr

/-- Entry of processQueue (App.tsx lines 111-123): a no-op returning
nothing when a run is already active (isProcessing guard, line 112),
otherwise a fresh run over the targets not currently loading, with
provider baselines and attempt 0. -/
def processQueueStart (p : Provider) (isProcessing : Bool)
    (targets : List WorkItem) : Option RunStart :=
  if isProcessing then none
  else some ⟨(targets.filter (fun i => !(i.status == ItemStatus.loading))).map (fun i => i.id),
             baseLimit p, baseDelay p, 0⟩

/-- handleRegenerate from App.tsx lines 283-288: look the item up by id
and hand the singleton list to processQueue. -/
def handleRegenerate (p : Provider) (isProcessing : Bool)
    (images : List WorkItem) (targetId : Nat) : Option RunStart :=
  match images.find? (fun i => i.id == targetId) with
  | none => none
  | some item => processQueueStart p isProcessing [item]

/-- Mutable state of one processQueue run (App.tsx lines 111-260),
abstracted to the quantities the queue invariants speak about:
the number of not-yet-dispatched queue items, the number of dispatched
and unsettled items (activePromises.length), the current adaptive
concurrencyLimit and dispatchDelay, the cancel flag shouldStopRef, and
three observation counters — dispatches (transitions to loading issued
by the dispatch loop), terminal status transitions (to success or
error), and status-mutation events (setImages calls) — plus the ghost
flag recording that a rate-limit failure has been seen. -/
structure QState where
  pendingCount : Nat
  inFlight : Nat
  limit : Nat
  delay : Nat
  cancelled : Bool
  throttled : Bool
  dispatchCount : Nat
  terminalCount : Nat
  mutationCount : Nat
deriving DecidableEq, Repr

/-- State at the start of a run over n queue items: baselines from the
provider, nothing in flight, flags clear (App.tsx lines 113-123). -/
def initQState (p : Provider) (n : Nat) : QState :=
  ⟨n, 0, baseLimit p, baseDelay p, false, false, 0, 0, 0⟩

/-- One atomic step of a run, at the granularity of the await points of
the cooperative-async code.  Each constructor models one resumption of
the dispatch loop or of an in-flight processItemWithRetry task:
dispatch (lines 224-253: only when not cancelled and strictly below the
current limit), cancel (handleStopProcessing line 279), a terminal
callback writing success or error (lines 162-166 and 215-219, both
behind a shouldStopRef check), a task resolving silently because the
cancel flag was observed (lines 129, 160, 168), a rate-limit failure
entering the retry branch (lines 184-194: limit := 1, delay := 8000,
countdown message written), and a non-rate-limit retryable failure
(lines 195-203: message written, limit and delay untouched). -/
inductive QStep : QState → QState → Prop where
  | dispatch (s : QState) (hp : 0 < s.pendingCount) (hc : s.cancelled = false)
      (hl : s.inFlight < s.limit) :
      QStep s { s with pendingCount := s.pendingCount - 1,
                       inFlight := s.inFlight + 1,
                       dispatchCount := s.dispatchCount + 1,
                       mutationCount := s.mutationCount + 1 }
  | cancel (s : QState) :
      QStep s { s with cancelled := true }
  | settleTerminal (s : QState) (hf : 0 < s.inFlight) (hc : s.cancelled = false) :
      QStep s { s with inFlight := s.inFlight - 1,
                       terminalCount := s.terminalCount + 1,
                       mutationCount := s.mutationCount + 1 }
  | settleSilent (s : QState) (hf : 0 < s.inFlight) (hc : s.cancelled = true) :
      QStep s { s with inFlight := s.inFlight - 1 }
  | rateLimitSignal (s : QState) (hf : 0 < s.inFlight) (hc : s.cancelled = false) :
      QStep s { s with limit := 1, delay := 8000, throttled := true,
                       mutationCount := s.mutationCount + 1 }
  | transientRetry (s : QState) (hf : 0 < s.inFlight) (hc : s.cancelled = false) :
      QStep s { s with mutationCount := s.mutationCount + 1 }

/-- States reachable during a run started on n items for provider p. -/
def Reachable (p : Provider) (n : Nat) (s : QState) : Prop :=
  Relation.ReflTransGen QStep (initQState p n) s

/-- Minimal JSON value model for the adapters' JSON.parse result. -/
inductive Json where
  | null
  | bool (b : Bool)
  | num (n : Int)
  | str (s : String)
  | arr (elems : List Json)
  | obj (kvs : List (String × Json))

/-- Whitespace characters skipped by JSON.parse. -/
def isWs (c : Char) : Bool :=
  c == ' ' || c == Char.ofNat 9 || c == Char.ofNat 10 || c == Char.ofNat 13

/-- Double-quote character. -/
def quoteChar : Char := Char.ofNat 34

/-- Backslash character. -/
def backslashChar : Char := Char.ofNat 92

/-- Opening curly bracket. -/
def lcurlChar : Char := Char.ofNat 123

/-- Closing curly bracket. -/
def rcurlChar : Char := Char.ofNat 125

/-- Opening square bracket. -/
def lsqChar : Char := Char.ofNat 91

/-- Closing square bracket. -/
def rsqChar : Char := Char.ofNat 93

/-- Read a string body up to the closing quote.  Escape sequences are
outside the modelled subset and make the parse fail. -/
def takeStringBody : List Char → Option (String × List Char)
  | [] => none
  | c :: rest =>
    if c == quoteChar then some ("", rest)
    else if c == backslashChar then none
    else
      match takeStringBody rest with
      | some (s, r) => some (⟨c :: s.data⟩, r)
      | none => none

/-- Decimal digits to a natural number. -/
def digitsToNat (ds : List Char) : Nat :=
  ds.foldl (fun acc d => acc * 10 + (d.toNat - 48)) 0

/-- Read an integer literal (optional minus, one or more digits). -/
def takeNumber (cs : List Char) : Option (Int × List Char) :=
  match cs with
  | '-' :: rest =>
    let (ds, r) := rest.span (fun c => c.isDigit)
    if ds.isEmpty then none else some (-(digitsToNat ds : Int), r)
  | _ =>
    let (ds, r) := cs.span (fun c => c.isDigit)
    if ds.isEmpty then none else some ((digitsToNat ds : Int), r)

mutual

/-- Fuel-bounded parser for one JSON value, modelling the JSON.parse
builtin on the subset without escape sequences or fractional numbers:
any input this parser accepts, JSON.parse accepts with the same value,
and a parse failure models JSON.parse throwing. -/
def parseVal : Nat → List Char → Option (Json × List Char)
  | 0, _ => none
  | fuel + 1, csRaw =>
    let cs := csRaw.dropWhile isWs
    match cs with
    | [] => none
    | c :: rest =>
      if c == quoteChar then
        match takeStringBody rest with
        | some (s, r) => some (.str s, r)
        | none => none
      else if c == lsqChar then
        let inner := rest.dropWhile isWs
        match inner with
        | d :: r2 =>
          if d == rsqChar then some (.arr [], r2)
          else
            match parseArrElems fuel inner with
            | some (vs, rr) => some (.arr vs, rr)
            | none => none
        | [] => none
      else if c == lcurlChar then
        let inner := rest.dropWhile isWs
        match inner with
        | d :: r2 =>
          if d == rcurlChar then some (.obj [], r2)
          else
            match parseObjElems fuel inner with
            | some (kvs, rr) => some (.obj kvs, rr)
            | none => none
        | [] => none
      else if "null".data.isPrefixOf cs then some (.null, cs.drop 4)
      else if "true".data.isPrefixOf cs then some (.bool true, cs.drop 4)
      else if "false".data.isPrefixOf cs then some (.bool false, cs.drop 5)
      else if c == '-' || c.isDigit then
        match takeNumber cs with
        | some (n, r) => some (.num n, r)
        | none => none
      else none

/-- Fuel-bounded parser for the comma-separated elements of a nonempty
array, consuming the closing bracket. -/
def parseArrElems : Nat → List Char → Option (List Json × List Char)
  | 0, _ => none
  | fuel + 1, cs =>
    match parseVal fuel cs with
    | none => none
    | some (v, r) =>
      match r.dropWhile isWs with
      | c :: r2 =>
        if c == ',' then
          match parseArrElems fuel r2 with
          | some (vs, rr) => some (v :: vs, rr)
          | none => none
        else if c == rsqChar then some ([v], r2)
        else none
      | [] => none

/-- Fuel-bounded parser for the comma-separated key-value pairs of a
nonempty object, consuming the closing bracket. -/
def parseObjElems : Nat → List Char → Option (List (String × Json) × List Char)
  | 0, _ => none
  | fuel + 1, cs =>
    match cs with
    | c :: rest =>
      if c == quoteChar then
        match takeStringBody rest with
        | some (k, r) =>
          match r.dropWhile isWs with
          | c2 :: r2 =>
            if c2 == ':' then
              match parseVal fuel r2 with
              | some (v, r3) =>
                match r3.dropWhile isWs with
                | c3 :: r4 =>
                  if c3 == ',' then
                    match parseObjElems fuel (r4.dropWhile isWs) with
                    | some (kvs, rr) => some ((k, v) :: kvs, rr)
                    | none => none
                  else if c3 == rcurlChar then some ([(k, v)], r4)
                  else none
                | [] => none
              | none => none
            else none
          | [] => none
        | none => none
      else none
    | [] => none

end

/-- Model of JSON.parse on the subset described at parseVal: some value
when the whole input parses, none when JSON.parse would throw. -/
def jsonParse (s : String) : Option Json :=
  match parseVal (2 * s.data.length + 2) s.data with
  | some (v, r) => if (r.dropWhile isWs).isEmpty then some v else none
  | none => none

/-- Post-processing of the model response content by
generateCaptionOpenAI (services/openai.ts lines 67-71): return the
JSON.parse result when parsing succeeds — whatever shape it has — and
fall back to the raw content as en with a fixed placeholder zh only when
JSON.parse throws. -/
def openaiParseContent (content : String) : Json :=
  match jsonParse content with
  | some j => j
  | none => Json.obj [("en", Json.str content), ("zh", Json.str "解析 JSON 失败")]

/-- Post-processing of the model response text by generateCaption
(services/gemini.ts lines 67-73): the possibly-absent response.text is
defaulted to an empty-object literal by the JavaScript or-operator
(falsy for undefined and for the empty string), then JSON.parse with the
same fallback structure as the openai adapter but placeholder 解析失败. -/
def geminiParseText (responseText : Option String) : Json :=
  let text := match responseText with
              | none => "\x7b\x7d"
              | some t => if t == "" then "\x7b\x7d" else t
  match jsonParse text with
  | some j => j
  | none => Json.obj [("en", Json.str text), ("zh", Json.str "解析失败")]

/-- Keys of a JSON object, none for other values. -/
def jsonObjKeys : Json → Option (List String)
  | .obj kvs => some (kvs.map (fun kv => kv.1))
  | _ => none

/-- First value bound to a key in a JSON object, none when the value is
not an object or lacks the key. -/
def jsonObjField (key : String) : Json → Option Json
  | .obj kvs => kvs.lookup key
  | _ => none

/-- Does the value fulfil the spec contract of being a JSON object with
exactly the keys en and zh? -/
def hasExactlyEnZh (j : Json) : Bool :=
  match j with
  | .obj kvs =>
    ((kvs.map (fun kv => kv.1)).contains "en") &&
    ((kvs.map (fun kv => kv.1)).contains "zh") &&
    kvs.length == 2
  | _ => false

/-- Inductive invariant of a run: the in-flight count never exceeds the
provider baseline, and the adaptive pair (limit, delay) is either still
at the baseline (before any rate-limit signal) or pinned at (1, 8000)
(after one). -/
def QInv (p : Provider) (s : QState) : Prop :=
  s.inFlight ≤ baseLimit p ∧
  (s.throttled = true → s.limit = 1 ∧ s.delay = 8000) ∧
  (s.throttled = false → s.limit = baseLimit p ∧ s.delay = baseDelay p)

theorem one_le_baseLimit (p : Provider) : 1 ≤ baseLimit p := by
  cases p <;> decide

theorem baseDelay_le_8000 (p : Provider) : baseDelay p ≤ 8000 := by
  cases p <;> decide

theorem qinv_limit_le (p : Provider) (s : QState) (h : QInv p s) :
    s.limit ≤ baseLimit p := by
  obtain ⟨-, ht, hf⟩ := h
  cases hth : s.throttled with
  | true => exact (ht hth).1 ▸ one_le_baseLimit p
  | false => exact Nat.le_of_eq (hf hth).1

theorem qinv_one_le_limit (p : Provider) (s : QState) (h : QInv p s) :
    1 ≤ s.limit := by
  obtain ⟨-, ht, hf⟩ := h
  cases hth : s.throttled with
  | true => exact Nat.le_of_eq (ht hth).1.symm
  | false => exact (hf hth).1 ▸ one_le_baseLimit p

theorem qinv_delay_le (p : Provider) (s : QState) (h : QInv p s) :
    s.delay ≤ 8000 := by
  obtain ⟨-, ht, hf⟩ := h
  cases hth : s.throttled with
  | true => exact Nat.le_of_eq (ht hth).2
  | false => exact (hf hth).2 ▸ baseDelay_le_8000 p

theorem qinv_base_le_delay (p : Provider) (s : QState) (h : QInv p s) :
    baseDelay p ≤ s.delay := by
  obtain ⟨-, ht, hf⟩ := h
  cases hth : s.throttled with
  | true => exact (ht hth).2 ▸ baseDelay_le_8000 p
  | false => exact Nat.le_of_eq (hf hth).2.symm

theorem qinv_init (p : Provider) (n : Nat) : QInv p (initQState p n) := by
  refine ⟨Nat.zero_le _, ?_, ?_⟩ <;> intro h <;> simp [initQState] at h ⊢

theorem qinv_step (p : Provider) (s t : QState) (hst : QStep s t) (h : QInv p s) :
    QInv p t := by
  cases hst with
  | dispatch hp hc hl =>
    refine ⟨?_, h.2.1, h.2.2⟩
    exact Nat.le_trans (Nat.succ_le_of_lt hl) (qinv_limit_le p s h)
  | cancel => exact ⟨h.1, h.2.1, h.2.2⟩
  | settleTerminal hf hc =>
    exact ⟨Nat.le_trans (Nat.sub_le _ _) h.1, h.2.1, h.2.2⟩
  | settleSilent hf hc =>
    exact ⟨Nat.le_trans (Nat.sub_le _ _) h.1, h.2.1, h.2.2⟩
  | rateLimitSignal hf hc =>
    exact ⟨h.1, fun _ => ⟨rfl, rfl⟩, fun hfalse => by simp at hfalse⟩
  | transientRetry hf hc => exact ⟨h.1, h.2.1, h.2.2⟩

theorem reachable_inv (p : Provider) (n : Nat) (s : QState)
    (h : Reachable p n s) : QInv p s := by
  unfold Reachable at h
  induction h with
  | refl => exact qinv_init p n
  | tail hrt hstep ih => exact qinv_step p _ _ hstep ih

theorem dropWhile_head_false {α : Type} (p : α → Bool) (l : List α) (c : α)
    (h : (l.dropWhile p).head? = some c) : p c = false := by
  induction l with
  | nil => simp [List.dropWhile] at h
  | cons a t ih =>
    rw [List.dropWhile_cons] at h
    by_cases hp : p a
    · rw [if_pos hp] at h
      exact ih h
    · rw [if_neg hp] at h
      simp only [List.head?_cons, Option.some.injEq] at h
      rw [← h]
      exact Bool.eq_false_iff.mpr hp

theorem dropWhile_idem {α : Type} (p : α → Bool) (l : List α) :
    (l.dropWhile p).dropWhile p = l.dropWhile p := by
  cases h : l.dropWhile p with
  | nil => simp
  | cons c t =>
    have hc : p c = false := dropWhile_head_false p l c (by rw [h]; rfl)
    rw [List.dropWhile_cons, if_neg (by simp [hc])]

theorem dropWhile_replicate_append {α : Type} (p : α → Bool) (c : α)
    (hc : p c = true) (k : Nat) (l : List α) :
    (List.replicate k c ++ l).dropWhile p = l.dropWhile p := by
  induction k with
  | zero => simp
  | succ m ih =>
    rw [List.replicate_succ, List.cons_append, List.dropWhile_cons, if_pos (by simp [hc])]
    exact ih

/-- An item whose adapter call fails with a rate-limit-classified error
at every attempt makes, from any attempt with budget r, exactly r + 1
calls and r backoff waits and ends in error with the quota-exhausted
message. -/
theorem retryGo_allRateLimit (adapter : Nat → CallResult) (p : Provider)
    (key : String)
    (h : ∀ n, ∃ e, adapter n = CallResult.err e ∧ isRateLimit e = true) :
    ∀ r a, retryGo adapter p key r a =
      ⟨r + 1, r, ItemStatus.error, some "配额耗尽", none, none⟩ := by
  intro r
  induction r with
  | zero =>
    intro a
    obtain ⟨e, he, hrl⟩ := h a
    have hr : isRetryable e = true := by simp [isRetryable, hrl]
    unfold retryGo
    rw [he]
    simp [hr, classifyErrorMsg, hrl]
  | succ m ih =>
    intro a
    obtain ⟨e, he, hrl⟩ := h a
    have hr : isRetryable e = true := by simp [isRetryable, hrl]
    unfold retryGo
    rw [he]
    simp [hr, ih (a + 1)]

/-- C2: for every item whose adapter call fails with a
rate-limit-classified error on every attempt (and with cancellation
never requested), processItemWithRetry performs exactly 10 retries after
the initial attempt — 11 adapter calls in total, with 10 backoff waits —
and then sets the item's status to error (with the quota-exhausted
message); no 11th retry is ever performed. -/
theorem rateLimit_exhausts_after_ten_retries (adapter : Nat → CallResult)
    (p : Provider) (key : String)
    (h : ∀ n, ∃ e, adapter n = CallResult.err e ∧ isRateLimit e = true) :
    (processItemWithRetry adapter p key 0).calls = 11 ∧
    (processItemWithRetry adapter p key 0).waits = 10 ∧
    (processItemWithRetry adapter p key 0).finalStatus = ItemStatus.error ∧
    (processItemWithRetry adapter p key 0).errMsg = some "配额耗尽" := by
  have hgo := retryGo_allRateLimit adapter p key h (MAX_RETRIES - 0) 0
  unfold processItemWithRetry
  rw [hgo]
  exact ⟨rfl, rfl, rfl, rfl⟩

/-- Witness for C2 at a constant 429/quota adapter. -/
theorem rateLimit_exhausts_after_ten_retries_witness :
    (processItemWithRetry (fun _ => CallResult.err ⟨some 429, "quota exceeded"⟩)
      Provider.gemini "" 0).calls = 11 ∧
    (processItemWithRetry (fun _ => CallResult.err ⟨some 429, "quota exceeded"⟩)
      Provider.gemini "" 0).waits = 10 ∧
    (processItemWithRetry (fun _ => CallResult.err ⟨some 429, "quota exceeded"⟩)
      Provider.gemini "" 0).finalStatus = ItemStatus.error ∧
    (processItemWithRetry (fun _ => CallResult.err ⟨some 429, "quota exceeded"⟩)
      Provider.gemini "" 0).errMsg = some "配额耗尽" :=
  rateLimit_exhausts_after_ten_retries _ Provider.gemini ""
    (fun _ => ⟨⟨some 429, "quota exceeded"⟩, rfl, by decide⟩)

/-- C7: an item whose first adapter call fails with a
malformed-MIME/content-type error (a non-retryable error whose
stringified form contains MIME) transitions directly to error with the
malformed-format message 格式错误: exactly one adapter call, zero backoff
waits, zero retries. -/
theorem malformed_mime_fails_without_retry (adapter : Nat → CallResult)
    (p : Provider) (key : String) (e : JsError)
    (h0 : adapter 0 = CallResult.err e)
    (hmime : containsSub e.errString "MIME" = true)
    (hretry : isRetryable e = false) :
    processItemWithRetry adapter p key 0 =
      ⟨1, 0, ItemStatus.error, some "格式错误", none, none⟩ := by
  have hrl : isRateLimit e = false := by
    cases hx : isRateLimit e with
    | false => rfl
    | true => rw [isRetryable, hx] at hretry; simp at hretry
  unfold processItemWithRetry retryGo
  rw [h0]
  simp [hretry, classifyErrorMsg, hrl, hmime]

/-- Witness for C7 at a concrete pure MIME error. -/
theorem malformed_mime_fails_without_retry_witness :
    processItemWithRetry (fun _ => CallResult.err ⟨none, "Unsupported MIME type"⟩)
      Provider.gemini "k" 0 =
      ⟨1, 0, ItemStatus.error, some "格式错误", none, none⟩ :=
  malformed_mime_fails_without_retry _ Provider.gemini "k"
    ⟨none, "Unsupported MIME type"⟩ rfl (by decide) (by decide)

/-- C5 counterexample: with prefix setting tok-comma-space, caption body
a cat and suffix setting comma-space-bg, getFinalCaption produces a
double space after the prefix, not the single-spaced text the claim
states. -/
theorem getFinalCaption_example_double_space :
    getFinalCaption "tok, " ", bg" "a cat" = "tok,  a cat , bg" ∧
    (("tok,  a cat , bg" : String) == "tok, a cat , bg") = false :=
  ⟨rfl, by decide⟩

/-- C5 amended: getFinalCaption keeps the segments whose trim is
nonempty and joins them, untrimmed, with single spaces: when the prefix
and suffix settings survive trimming, the result is the raw prefix, raw
body (when it survives trimming, else skipped) and raw suffix joined by
one space each — so a prefix ending in a space yields a double space. -/
theorem getFinalCaption_joins_untrimmed (pre raw suf : String)
    (hp : (!pre.data.isEmpty && !(jsTrim pre).data.isEmpty) = true)
    (hs : (!suf.data.isEmpty && !(jsTrim suf).data.isEmpty) = true) :
    getFinalCaption pre suf raw =
      if !raw.data.isEmpty && !(jsTrim raw).data.isEmpty
      then pre ++ " " ++ raw ++ " " ++ suf
      else pre ++ " " ++ suf := by
  unfold getFinalCaption
  cases hr : (!raw.data.isEmpty && !(jsTrim raw).data.isEmpty) with
  | true => simp [List.filter, hp, hs, hr, String.intercalate, String.intercalate.go]
  | false => simp [List.filter, hp, hs, hr, String.intercalate, String.intercalate.go]

/-- Witness for C5 amended at the spec's example segments. -/
theorem getFinalCaption_joins_untrimmed_witness :
    getFinalCaption "tok, " ", bg" "a cat" =
      "tok, " ++ " " ++ "a cat" ++ " " ++ ", bg" := by
  rw [getFinalCaption_joins_untrimmed "tok, " "a cat" ", bg" (by decide) (by decide)]
  rfl

/-- C6 counterexample: while a bulk run is active (isProcessing true),
invoking regenerate on an existing error item starts nothing — the
isProcessing guard of processQueue makes it a no-op, contrary to the
claim that it always starts re-captioning. -/
theorem handleRegenerate_noop_during_active_run :
    handleRegenerate Provider.gemini true [⟨7, ItemStatus.error⟩] 7 = none := rfl

/-- C6 amended: regenerate on an item found by id starts re-captioning
only when no bulk run is active, and then with attempt counter 0 and a
fresh run at provider baselines; while a bulk run is active it is a
no-op (returns without enqueuing), and consequently leaves the active
run's concurrency limit and dispatch delay untouched. -/
theorem handleRegenerate_idle_starts_fresh (p : Provider)
    (images : List WorkItem) (targetId : Nat) (item : WorkItem)
    (hf : images.find? (fun i => i.id == targetId) = some item)
    (hs : (item.status == ItemStatus.loading) = false) :
    handleRegenerate p false images targetId =
      some ⟨[item.id], baseLimit p, baseDelay p, 0⟩ ∧
    handleRegenerate p true images targetId = none := by
  constructor
  · unfold handleRegenerate
    rw [hf]
    unfold processQueueStart
    simp [List.filter, hs]
  · unfold handleRegenerate
    rw [hf]
    rfl

/-- Witness for C6 amended at a concrete single-item store. -/
theorem handleRegenerate_idle_starts_fresh_witness :
    handleRegenerate Provider.gemini false [⟨7, ItemStatus.error⟩] 7 =
      some ⟨[7], baseLimit Provider.gemini, baseDelay Provider.gemini, 0⟩ ∧
    handleRegenerate Provider.gemini true [⟨7, ItemStatus.error⟩] 7 = none :=
  handleRegenerate_idle_starts_fresh Provider.gemini [⟨7, ItemStatus.error⟩] 7
    ⟨7, ItemStatus.error⟩ rfl (by decide)

/-- C8 counterexample: the response text consisting of an empty JSON
object parses successfully, is not an object with exactly the keys en
and zh, and both adapters return the parsed empty object unchanged — in
particular its en field is absent rather than the raw text, so the
claimed fallback does not apply whenever the text merely fails the
exact-en-zh shape. -/
theorem adapters_return_parsed_non_enzh_object :
    jsonParse "\x7b\x7d" = some (Json.obj []) ∧
    hasExactlyEnZh (Json.obj []) = false ∧
    openaiParseContent "\x7b\x7d" = Json.obj [] ∧
    geminiParseText (some "\x7b\x7d") = Json.obj [] ∧
    jsonObjField "en" (openaiParseContent "\x7b\x7d") = none ∧
    jsonObjField "en" (geminiParseText (some "\x7b\x7d")) = none :=
  ⟨rfl, rfl, rfl, rfl, rfl, rfl⟩

/-- C8 amended: for both provider adapters, the raw-text-as-en fallback
with the fixed placeholder zh applies exactly when JSON.parse throws on
the response text; when the text parses as any JSON value — whatever its
shape — that value is returned unchanged. -/
theorem adapters_fallback_iff_parse_throws (content : String)
    (hne : (content == "") = false) :
    (jsonParse content = none →
      openaiParseContent content =
        Json.obj [("en", Json.str content), ("zh", Json.str "解析 JSON 失败")] ∧
      geminiParseText (some content) =
        Json.obj [("en", Json.str content), ("zh", Json.str "解析失败")]) ∧
    (∀ j, jsonParse content = some j →
      openaiParseContent content = j ∧ geminiParseText (some content) = j) := by
  constructor
  · intro h
    constructor
    · unfold openaiParseContent
      rw [h]
    · unfold geminiParseText
      simp only [hne, Bool.false_eq_true, if_false]
      rw [h]
  · intro j h
    constructor
    · unfold openaiParseContent
      rw [h]
    · unfold geminiParseText
      simp only [hne, Bool.false_eq_true, if_false]
      rw [h]

/-- Witness for C8 amended at a response text JSON.parse rejects. -/
theorem adapters_fallback_iff_parse_throws_witness :
    openaiParseContent "hello" =
      Json.obj [("en", Json.str "hello"), ("zh", Json.str "解析 JSON 失败")] ∧
    geminiParseText (some "hello") =
      Json.obj [("en", Json.str "hello"), ("zh", Json.str "解析失败")] :=
  (adapters_fallback_iff_parse_throws "hello" (by decide)).1 rfl

/-- C9: two inputs sharing the filename a.png are both assigned the
archive entry name a.txt — the duplicate-handling branch of
downloadAsZip never fires because the sentinel value it stores is 0,
which is falsy, so the names are not pairwise distinct and the second
caption file overwrites the first (against the code's own comments). -/
theorem zipEntryNames_duplicates_collide :
    zipEntryNames ["a.png", "a.png"] = ["a.txt", "a.txt"] ∧
    zipEntryNames ["a.png", "a.png", "a.png"] = ["a.txt", "a.txt", "a.txt"] :=
  ⟨rfl, rfl⟩

/-- C10: cleanBaseUrl never leaves a trailing slash, is idempotent, and
generateCaptionOpenAI builds the same request URL for a base URL given
with or without any number of trailing slashes. -/
theorem cleanBaseUrl_normalizes :
    (∀ url, endsWithSlash (cleanBaseUrl url) = false) ∧
    (∀ url, cleanBaseUrl (cleanBaseUrl url) = cleanBaseUrl url) ∧
    (∀ u k, openaiRequestUrl (u ++ (⟨List.replicate k '/'⟩ : String)) =
      openaiRequestUrl u) := by
  refine ⟨?_, ?_, ?_⟩
  · intro url
    unfold endsWithSlash cleanBaseUrl
    cases h : (url.data.reverse.dropWhile (fun c => c == '/')).reverse.getLast? with
    | none => rfl
    | some c =>
      rw [List.getLast?_reverse] at h
      have hc := dropWhile_head_false (fun c => c == '/') url.data.reverse c h
      simp only [hc]
  · intro url
    unfold cleanBaseUrl
    simp only [List.reverse_reverse]
    rw [dropWhile_idem]
  · intro u k
    unfold openaiRequestUrl cleanBaseUrl
    have hdata : (u ++ (⟨List.replicate k '/'⟩ : String)).data =
        u.data ++ List.replicate k '/' := String.data_append u _
    rw [hdata, List.reverse_append, List.reverse_replicate,
        dropWhile_replicate_append (fun c => c == '/') '/' (by decide)]

/-- C1 counterexample: in a gemini run over 3 items, dispatching all 3
(each allowed, since 0,1,2 < 3) and then receiving a rate-limit failure
from one of them reaches a state with concurrency limit 1 but 3 items
still in flight: the in-flight count exceeds the lowered limit, so the
claimed instant-by-instant bound by the current limit is false. -/
theorem inflight_exceeds_lowered_limit :
    Reachable Provider.gemini 3 ⟨0, 3, 1, 8000, false, true, 3, 0, 4⟩ ∧
    (⟨0, 3, 1, 8000, false, true, 3, 0, 4⟩ : QState).limit <
      (⟨0, 3, 1, 8000, false, true, 3, 0, 4⟩ : QState).inFlight := by
  constructor
  · have st1 : QStep (⟨3, 0, 3, 500, false, false, 0, 0, 0⟩ : QState)
        ⟨2, 1, 3, 500, false, false, 1, 0, 1⟩ :=
      QStep.dispatch _ (by decide) rfl (by decide)
    have st2 : QStep (⟨2, 1, 3, 500, false, false, 1, 0, 1⟩ : QState)
        ⟨1, 2, 3, 500, false, false, 2, 0, 2⟩ :=
      QStep.dispatch _ (by decide) rfl (by decide)
    have st3 : QStep (⟨1, 2, 3, 500, false, false, 2, 0, 2⟩ : QState)
        ⟨0, 3, 3, 500, false, false, 3, 0, 3⟩ :=
      QStep.dispatch _ (by decide) rfl (by decide)
    have st4 : QStep (⟨0, 3, 3, 500, false, false, 3, 0, 3⟩ : QState)
        ⟨0, 3, 1, 8000, false, true, 3, 0, 4⟩ :=
      QStep.rateLimitSignal _ (by decide) rfl
    exact Relation.ReflTransGen.tail
      (Relation.ReflTransGen.tail
        (Relation.ReflTransGen.tail
          (Relation.ReflTransGen.tail Relation.ReflTransGen.refl st1) st2) st3) st4
  · decide

/-- C1 amended: in every reachable state of a run the in-flight count is
bounded by the run's initial (baseline) concurrency limit, and every
step that increases the in-flight count — a dispatch — lands in a state
whose in-flight count is at most the concurrency limit current at that
step; in-flight may exceed the current limit only transiently, after the
limit was lowered under already-dispatched items. -/
theorem inflight_bounded_by_baseline (p : Provider) (n : Nat) (s : QState)
    (h : Reachable p n s) :
    s.inFlight ≤ (initQState p n).limit ∧
    (∀ t, QStep s t → s.inFlight < t.inFlight → t.inFlight ≤ t.limit) := by
  constructor
  · exact (reachable_inv p n s h).1
  · intro t hst hinc
    cases hst with
    | dispatch hp hc hl => exact Nat.succ_le_of_lt hl
    | cancel => exact absurd hinc (lt_irrefl _)
    | settleTerminal hf hc =>
      exact absurd hinc (show ¬ s.inFlight < s.inFlight - 1 by omega)
    | settleSilent hf hc =>
      exact absurd hinc (show ¬ s.inFlight < s.inFlight - 1 by omega)
    | rateLimitSignal hf hc => exact absurd hinc (lt_irrefl _)
    | transientRetry hf hc => exact absurd hinc (lt_irrefl _)

/-- Witness for C1 amended at the initial state of a gemini run. -/
theorem inflight_bounded_by_baseline_witness :
    (initQState Provider.gemini 3).inFlight ≤ (initQState Provider.gemini 3).limit :=
  (inflight_bounded_by_baseline Provider.gemini 3 _ Relation.ReflTransGen.refl).1

/-- C3: in every reachable state of a run, the concurrency limit is at
most the provider baseline and the dispatch delay at least the provider
baseline; once a rate-limit failure has been seen (throttled) the pair
is pinned at (1, 8000); and every step keeps the limit non-increasing,
the delay non-decreasing, and — from a throttled state, whatever kind of
step follows, including non-rate-limit failures — stays throttled at
(1, 8000). -/
theorem throttle_ratchet (p : Provider) (n : Nat) (s : QState)
    (h : Reachable p n s) :
    (s.limit ≤ baseLimit p ∧ baseDelay p ≤ s.delay) ∧
    (s.throttled = true → s.limit = 1 ∧ s.delay = 8000) ∧
    (∀ t, QStep s t →
      t.limit ≤ s.limit ∧ s.delay ≤ t.delay ∧
      (s.throttled = true → t.throttled = true ∧ t.limit = 1 ∧ t.delay = 8000)) := by
  have inv := reachable_inv p n s h
  refine ⟨⟨qinv_limit_le p s inv, qinv_base_le_delay p s inv⟩, inv.2.1, ?_⟩
  intro t hst
  cases hst with
  | dispatch hp hc hl =>
    exact ⟨Nat.le_refl _, Nat.le_refl _, fun hth => ⟨hth, inv.2.1 hth⟩⟩
  | cancel =>
    exact ⟨Nat.le_refl _, Nat.le_refl _, fun hth => ⟨hth, inv.2.1 hth⟩⟩
  | settleTerminal hf hc =>
    exact ⟨Nat.le_refl _, Nat.le_refl _, fun hth => ⟨hth, inv.2.1 hth⟩⟩
  | settleSilent hf hc =>
    exact ⟨Nat.le_refl _, Nat.le_refl _, fun hth => ⟨hth, inv.2.1 hth⟩⟩
  | rateLimitSignal hf hc =>
    exact ⟨qinv_one_le_limit p s inv, qinv_delay_le p s inv,
      fun _ => ⟨rfl, rfl, rfl⟩⟩
  | transientRetry hf hc =>
    exact ⟨Nat.le_refl _, Nat.le_refl _, fun hth => ⟨hth, inv.2.1 hth⟩⟩

/-- Witness for C3 at the initial state of a gemini run. -/
theorem throttle_ratchet_witness :
    (initQState Provider.gemini 2).limit ≤ baseLimit Provider.gemini ∧
    baseDelay Provider.gemini ≤ (initQState Provider.gemini 2).delay :=
  (throttle_ratchet Provider.gemini 2 _ Relation.ReflTransGen.refl).1

/-- After the cancel flag is set, a single step can neither dispatch,
nor record a terminal transition, nor mutate any status, nor clear the
flag. -/
theorem qstep_cancelled_frozen (s t : QState) (hst : QStep s t)
    (hc : s.cancelled = true) :
    t.dispatchCount = s.dispatchCount ∧ t.terminalCount = s.terminalCount ∧
    t.mutationCount = s.mutationCount ∧ t.cancelled = true := by
  cases hst with
  | dispatch hp hc2 hl => rw [hc] at hc2; exact absurd hc2 (by simp)
  | cancel => exact ⟨rfl, rfl, rfl, rfl⟩
  | settleTerminal hf hc2 => rw [hc] at hc2; exact absurd hc2 (by simp)
  | settleSilent hf hc2 => exact ⟨rfl, rfl, rfl, hc⟩
  | rateLimitSignal hf hc2 => rw [hc] at hc2; exact absurd hc2 (by simp)
  | transientRetry hf hc2 => rw [hc] at hc2; exact absurd hc2 (by simp)

/-- C4: in any run, from any reachable state in which the cancel flag is
set, every further sequence of steps leaves the dispatch count, the
terminal (success or error) transition count and the status-mutation
count unchanged and the flag set: no item is newly dispatched to loading
and no in-flight callback applies any further status mutation after
cancellation is observed. -/
theorem cancelled_run_frozen (p : Provider) (n : Nat) (s t : QState)
    (_hr : Reachable p n s) (hc : s.cancelled = true)
    (h : Relation.ReflTransGen QStep s t) :
    t.dispatchCount = s.dispatchCount ∧ t.terminalCount = s.terminalCount ∧
    t.mutationCount = s.mutationCount ∧ t.cancelled = true := by
  induction h with
  | refl => exact ⟨rfl, rfl, rfl, hc⟩
  | tail hrt hstep ih =>
    obtain ⟨h1, h2, h3, h4⟩ := ih
    obtain ⟨g1, g2, g3, g4⟩ := qstep_cancelled_frozen _ _ hstep h4
    exact ⟨g1.trans h1, g2.trans h2, g3.trans h3, g4⟩

/-- Witness for C4 at a gemini run cancelled immediately after start. -/
theorem cancelled_run_frozen_witness :
    (⟨1, 0, 3, 500, true, false, 0, 0, 0⟩ : QState).dispatchCount =
      (⟨1, 0, 3, 500, true, false, 0, 0, 0⟩ : QState).dispatchCount ∧
    (⟨1, 0, 3, 500, true, false, 0, 0, 0⟩ : QState).terminalCount =
      (⟨1, 0, 3, 500, true, false, 0, 0, 0⟩ : QState).terminalCount ∧
    (⟨1, 0, 3, 500, true, false, 0, 0, 0⟩ : QState).mutationCount =
      (⟨1, 0, 3, 500, true, false, 0, 0, 0⟩ : QState).mutationCount ∧
    (⟨1, 0, 3, 500, true, false, 0, 0, 0⟩ : QState).cancelled = true :=
  cancelled_run_frozen Provider.gemini 1
    ⟨1, 0, 3, 500, true, false, 0, 0, 0⟩ ⟨1, 0, 3, 500, true, false, 0, 0, 0⟩
    (Relation.ReflTransGen.tail Relation.ReflTransGen.refl (QStep.cancel _))
    rfl Relation.ReflTransGen.refl

end FluxTag
